import Mathlib

/-!
Verification of the EduBias batch-processing pipeline.

Shallow embedding of `openai_client.py` (remote call client: truncation,
retry with exponential backoff, choice extraction) and `process_pdfs.py`
(orchestrator loop, response normalizer, processing ledger, result
accumulator), with theorems settling the specification claims.

Python dicts are modelled as ordered association lists (insertion order,
no duplicate keys), JSON values as the inductive `Json`, machine floats
only appear as the backoff factor, modelled exactly by `ℚ` (the values
involved — 1.0 and small powers of two — are exact in binary floating
point, so `ℚ` is faithful on them).
-/

namespace EduBias

/-- JSON values, as produced by Python's `json.loads`. Objects keep
insertion order, as Python dicts do. -/
inductive Json where
  | null
  | bool (b : Bool)
  | num (n : Int)
  | str (s : String)
  | arr (xs : List Json)
  | obj (kvs : List (String × Json))

/-- Association-list record, the model of a Python dict. -/
abbrev RecordT := List (String × Json)

/-- `d.get(k)`: first binding of `k` (dicts have no duplicates). -/
def dictGet : RecordT → String → Option Json
  | [], _ => none
  | (k', v) :: rest, k => if k' = k then some v else dictGet rest k

/-- `d[k] = v`: replace the binding in place, else append (dict
assignment keeps the original key position). -/
def setField : RecordT → String → Json → RecordT
  | [], k, v => [(k, v)]
  | (k', v') :: rest, k, v =>
    if k' = k then (k, v) :: rest else (k', v') :: setField rest k v

/-- Python truthiness of a JSON value. -/
def truthy : Json → Bool
  | .null => false
  | .bool b => b
  | .num n => !(n == 0)
  | .str s => !(s == "")
  | .arr xs => !xs.isEmpty
  | .obj kvs => !kvs.isEmpty

/-! ### A JSON parser modelling `json.loads`

Modelled from the spec: `process_pdfs.py` calls the Python standard
library's `json.loads`, which is an external collaborator ("parse it as
a structured object"). The model covers the JSON fragment the pipeline
exercises: objects, arrays, strings with the standard escapes, integer
numbers, `true`/`false`/`null`; non-integer numerals are outside the
model. Parsing fails (`none`) exactly where `json.loads` raises
`JSONDecodeError` on this fragment, including trailing data. -/

/-- JSON insignificant whitespace. -/
def skipWs : List Char → List Char
  | c :: cs =>
    if c = ' ' ∨ c = '\t' ∨ c = '\n' ∨ c = '\r' then skipWs cs else c :: cs
  | [] => []

/-- Hex digit value. -/
def hexVal (c : Char) : Option Nat :=
  if '0' ≤ c ∧ c ≤ '9' then some (c.toNat - 48)
  else if 'a' ≤ c ∧ c ≤ 'f' then some (c.toNat - 87)
  else if 'A' ≤ c ∧ c ≤ 'F' then some (c.toNat - 55)
  else none

/-- String body after the opening quote: chars up to the closing quote,
with the standard escapes; raw control characters are rejected, as in
strict-mode `json.loads`. -/
def parseStrAux : List Char → List Char → Option (String × List Char)
  | _, [] => none
  | acc, '"' :: rest => some (String.mk acc.reverse, rest)
  | acc, '\\' :: rest =>
    match rest with
    | '"' :: r => parseStrAux ('"' :: acc) r
    | '\\' :: r => parseStrAux ('\\' :: acc) r
    | '/' :: r => parseStrAux ('/' :: acc) r
    | 'b' :: r => parseStrAux ('\x08' :: acc) r
    | 'f' :: r => parseStrAux ('\x0c' :: acc) r
    | 'n' :: r => parseStrAux ('\n' :: acc) r
    | 'r' :: r => parseStrAux ('\r' :: acc) r
    | 't' :: r => parseStrAux ('\t' :: acc) r
    | 'u' :: h1 :: h2 :: h3 :: h4 :: r =>
      match hexVal h1, hexVal h2, hexVal h3, hexVal h4 with
      | some a, some b, some c, some d =>
        let code := ((a * 16 + b) * 16 + c) * 16 + d
        if h : code.isValidChar then parseStrAux (Char.ofNatAux code h :: acc) r
        else none
      | _, _, _, _ => none
    | _ => none
  | acc, c :: rest =>
    if c.toNat < 32 then none else parseStrAux (c :: acc) rest

/-- Run of decimal digits, most significant first. -/
def parseDigits : List Char → Nat → Nat × List Char
  | c :: rest, acc =>
    if c.isDigit then parseDigits rest (acc * 10 + (c.toNat - 48))
    else (acc, c :: rest)
  | [], acc => (acc, [])

/-- Unsigned integer numeral; a following `.`, `e` or `E` (a float) is
outside the modelled fragment. -/
def parseNum (cs : List Char) : Option (Nat × List Char) :=
  match cs with
  | c :: _ =>
    if c.isDigit then
      match parseDigits cs 0 with
      | (n, rest) =>
        match rest with
        | '.' :: _ => none
        | 'e' :: _ => none
        | 'E' :: _ => none
        | _ => some (n, rest)
    else none
  | [] => none

mutual

/-- One JSON value, fuel-indexed (fuel bounds nesting depth). -/
def parseVal : Nat → List Char → Option (Json × List Char)
  | 0, _ => none
  | fuel + 1, cs =>
    match skipWs cs with
    | '{' :: rest => parseMembers fuel rest [] true
    | '[' :: rest => parseItems fuel rest [] true
    | '"' :: rest =>
      match parseStrAux [] rest with
      | some (s, r) => some (Json.str s, r)
      | none => none
    | '-' :: rest =>
      match parseNum rest with
      | some (n, r) => some (Json.num (-(n : Int)), r)
      | none => none
    | 't' :: 'r' :: 'u' :: 'e' :: rest => some (Json.bool true, rest)
    | 'f' :: 'a' :: 'l' :: 's' :: 'e' :: rest => some (Json.bool false, rest)
    | 'n' :: 'u' :: 'l' :: 'l' :: rest => some (Json.null, rest)
    | c :: rest =>
      if c.isDigit then
        match parseNum (c :: rest) with
        | some (n, r) => some (Json.num (n : Int), r)
        | none => none
      else none
    | [] => none

/-- Object members after `{`; `first` is true before any member has been
read (so `{}` is allowed but a trailing comma is not). Duplicate keys
overwrite in place, as in a Python dict. -/
def parseMembers : Nat → List Char → RecordT → Bool → Option (Json × List Char)
  | 0, _, _, _ => none
  | fuel + 1, cs, acc, first =>
    match skipWs cs with
    | '}' :: rest => if first then some (Json.obj acc, rest) else none
    | '"' :: rest =>
      match parseStrAux [] rest with
      | some (k, r1) =>
        match skipWs r1 with
        | ':' :: r2 =>
          match parseVal fuel r2 with
          | some (v, r3) =>
            match skipWs r3 with
            | ',' :: r4 => parseMembers fuel r4 (setField acc k v) false
            | '}' :: r4 => some (Json.obj (setField acc k v), r4)
            | _ => none
          | none => none
        | _ => none
      | none => none
    | _ => none

/-- Array items after `[`; `first` as in `parseMembers`. -/
def parseItems : Nat → List Char → List Json → Bool → Option (Json × List Char)
  | 0, _, _, _ => none
  | fuel + 1, cs, acc, first =>
    match skipWs cs with
    | ']' :: rest => if first then some (Json.arr acc.reverse, rest) else none
    | cs' =>
      match parseVal fuel cs' with
      | some (v, r1) =>
        match skipWs r1 with
        | ',' :: r2 => parseItems fuel r2 (v :: acc) false
        | ']' :: r2 => some (Json.arr (v :: acc).reverse, r2)
        | _ => none
      | none => none

end

/-- `json.loads`: parse one value and require only whitespace after it.
Python strings are modelled as `List Char` (sequences of code points)
throughout the pipeline. -/
def json_loads (cs : List Char) : Option Json :=
  match parseVal (cs.length + 1) cs with
  | some (v, rest) => if skipWs rest = [] then some v else none
  | none => none

/-! ### Response normalizer (`process_pdfs.py`, lines 80–103)

The spec calls this component `extract_object`; in the source it is
inline in `main`. -/

/-- Characters stripped by Python's no-argument `str.strip()` (ASCII
fragment). -/
def pyIsSpace (c : Char) : Bool :=
  c = ' ' ∨ c = '\t' ∨ c = '\n' ∨ c = '\r' ∨ c = '\x0b' ∨ c = '\x0c'

/-- Python `s.strip()`. -/
def pyStrip (cs : List Char) : List Char :=
  ((cs.dropWhile pyIsSpace).reverse.dropWhile pyIsSpace).reverse

/-- Python `s[: len(s) - n]` (drop the last `n` characters, clamped). -/
def dropRightN (cs : List Char) (n : Nat) : List Char :=
  cs.take (cs.length - n)

/-- Step 1 — strip fenced-code wrapping (lines 81–84): a `"```json"`
fence or a plain `"```"` fence is removed and the remainder stripped;
`(cs.drop 7)` then dropping the last 3 mirrors the Python slice
`s[7:-3]` (both are empty whenever the slice is improper). -/
def stripFences (response : List Char) : List Char :=
  if "```json".toList.isPrefixOf response ∧ "```".toList.isSuffixOf response then
    pyStrip (dropRightN (response.drop 7) 3)
  else if "```".toList.isPrefixOf response ∧ "```".toList.isSuffixOf response then
    pyStrip (dropRightN (response.drop 3) 3)
  else response

/-- Index of the first occurrence of `c`, Python `s.find(c)` (`none` for `-1`). -/
def firstIdx (cs : List Char) (c : Char) : Option Nat :=
  match cs with
  | [] => none
  | x :: rest =>
    if x = c then some 0
    else match firstIdx rest c with
      | some i => some (i + 1)
      | none => none

/-- Index of the last occurrence of `c`, Python `s.rfind(c)`. -/
def lastIdx (cs : List Char) (c : Char) : Option Nat :=
  match firstIdx cs.reverse c with
  | some i => some (cs.length - 1 - i)
  | none => none

/-- Step 2/3 boundary slice (lines 86–94): `response[start : end+1]` for
`start = find("{")`, `end = rfind("}")`, `none` when either is absent. -/
def sliceBraces (cs : List Char) : Option (List Char) :=
  match firstIdx cs '{', lastIdx cs '}' with
  | some start, some stop => some ((cs.take (stop + 1)).drop start)
  | _, _ => none

/-- Python `s.split(',')`: split on every comma, keeping empty pieces. -/
def splitComma (cs : List Char) : List (List Char) :=
  go [] cs
where
  go : List Char → List Char → List (List Char)
    | acc, [] => [acc.reverse]
    | acc, c :: rest =>
      if c = ',' then acc.reverse :: go [] rest else go (c :: acc) rest

/-- Step 4 — list-field repair (lines 100–102): a string-valued
`biases` field is split on commas, each piece stripped, empty pieces
dropped, and the field replaced in place by the resulting list. -/
def repairBiases (kvs : RecordT) : RecordT :=
  match dictGet kvs "biases" with
  | some (.str s) =>
    setField kvs "biases"
      (Json.arr ((((splitComma s.toList).map pyStrip).filter (· ≠ [])).map
        (fun p => Json.str (String.mk p))))
  | _ => kvs

/-- Failure modes of the normalizer (`MalformedResponse` reasons). -/
inductive NormErr where
  | noBoundaries
  | parseError
deriving DecidableEq

/-- The normalizer, lines 80–103 without the `filename` tag: strip
fences, slice to the outermost braces, parse, repair the `biases`
field. The slice always starts with `{`, so a successful parse is an
object. -/
def extract_object (response : List Char) : Except NormErr RecordT :=
  match sliceBraces (stripFences response) with
  | none => .error .noBoundaries
  | some body => parseStage body
where
  /-- Steps 3–4 on the sliced body: parse (lines 97–98), then repair the
  `biases` field; a parse failure (or a non-object, impossible for a
  slice starting at `{`) is the parse-error skip of lines 106–109. -/
  parseStage (body : List Char) : Except NormErr RecordT :=
    match json_loads body with
    | some (Json.obj kvs) => .ok (repairBiases kvs)
    | _ => .error .parseError

/-! ### Remote call client (`openai_client.py`, `chat_completion`) -/

/-- Truncation (lines 90–92): Python
`if truncate_chars and len(send_prompt) > truncate_chars`, so `none`
and `some 0` (falsy) disable truncation. -/
def send_prompt (prompt : List Char) (truncate_chars : Option Nat) : List Char :=
  match truncate_chars with
  | some n =>
    if n ≠ 0 ∧ prompt.length > n then prompt.take n ++ "\n\n...<TRUNCATED>...".toList
    else prompt
  | none => prompt

/-- Exceptions an attempt of `chat_completion` can raise; all are caught
by the `except` at line 144 and retried. `llmError` carries the raw
value of `choices["error"]` (line 141), `noText` is
`RuntimeError("No text in response")` (line 143), `unknown` is the
`retries = 0` fallback of line 149. -/
inductive CallError where
  | transport (msg : String)
  | typeError
  | llmError (v : Json)
  | noText
  | unknown

/-- Python `x or y` on optional JSON values (`.get` returns `None` when
absent): the left value is kept only if truthy. -/
def pyOr (a b : Option Json) : Option Json :=
  match a with
  | some v => if truthy v then some v else b
  | none => b

/-- Lines 130–133: the fragment one choice entry contributes —
`message.content`/`message.text` when the entry has a dict-valued
`message`, else its flat `text`/`content` when the entry is a dict. -/
def contOf (ch : Json) : Option Json :=
  match ch with
  | .obj kvs =>
    match dictGet kvs "message" with
    | some (.obj mkvs) => pyOr (dictGet mkvs "content") (dictGet mkvs "text")
    | _ => pyOr (dictGet kvs "text") (dictGet kvs "content")
  | _ => none

/-- Lines 134–135: the fragment is appended only when truthy. -/
def fragmentOf (ch : Json) : Option Json :=
  match contOf ch with
  | some v => if truthy v then some v else none
  | none => none

/-- Python `for ch in choices`: lists yield elements, dicts their keys,
strings their characters; other values raise `TypeError`. -/
def iterElems : Json → Option (List Json)
  | .arr xs => some xs
  | .obj kvs => some (kvs.map (fun kv => Json.str kv.1))
  | .str s => some (s.toList.map (fun c => Json.str (String.mk [c])))
  | _ => none

/-- All-strings view of the collected fragments; a non-string fragment
makes `"\n".join` raise `TypeError`. -/
def asStrings : List Json → Option (List String)
  | [] => some []
  | .str s :: rest =>
    match asStrings rest with
    | some ss => some (s :: ss)
    | none => none
  | _ :: _ => none

/-- Line 120/123/125: `choices = resp.get("choices") or []`. -/
def choicesOf (rkvs : RecordT) : Json :=
  match dictGet rkvs "choices" with
  | some v => if truthy v then v else Json.arr []
  | none => Json.arr []

/-- Lines 120–143 after a successful transport: extract the choice
fragments, join them with newlines and strip (line 138); with no
fragment, raise the embedded `choices["error"]` if `choices` is a dict
with an `error` key (lines 140–141), else the generic "No text in
response" (line 143). A non-dict response body raises on `.get`. -/
def respOutcome (resp : Json) : Except CallError (List Char) :=
  match resp with
  | .obj rkvs =>
    let choices := choicesOf rkvs
    match iterElems choices with
    | none => .error .typeError
    | some elems =>
      match elems.filterMap fragmentOf with
      | [] =>
        match choices with
        | .obj ckvs =>
          match dictGet ckvs "error" with
          | some v => .error (.llmError v)
          | none => .error .noText
        | _ => .error .noText
      | texts =>
        match asStrings texts with
        | some strs => .ok (pyStrip (List.intercalate ['\n'] (strs.map String.toList)))
        | none => .error .typeError
  | _ => .error .typeError

/-- One attempt (lines 107–143): the transport oracle gives, per attempt
number, either the parsed JSON body obtained by whichever transport path
succeeded, or a raised transport error. -/
def attemptBody (t : Except String Json) : Except CallError (List Char) :=
  match t with
  | .error m => .error (.transport m)
  | .ok resp => respOutcome resp

/-- The retry loop of lines 105–149: on any attempt failure record the
error, sleep `backoff_factor * 2^(attempt-1)` (the sleep happens even
after the final attempt), and continue; when attempts are exhausted,
re-raise the last error unwrapped. Returns (result, attempts made,
sleep durations in order). -/
def chatGo (tO : Nat → Except String Json) (bf : ℚ) :
    List Nat → Nat → Option CallError → List ℚ →
    Except CallError (List Char) × Nat × List ℚ
  | [], made, last, sleeps =>
    (match last with
     | some e => .error e
     | none => .error .unknown,
     made, sleeps)
  | a :: rest, made, _, sleeps =>
    match attemptBody (tO a) with
    | .ok s => (.ok s, made + 1, sleeps)
    | .error e => chatGo tO bf rest (made + 1) (some e) (sleeps ++ [bf * 2 ^ (a - 1)])

/-- `chat_completion` restricted to its retry behaviour: attempts are
numbered `1..retries` as in `range(1, retries + 1)`. -/
def chat_completion (tO : Nat → Except String Json) (retries : Nat) (bf : ℚ) :
    Except CallError (List Char) × Nat × List ℚ :=
  chatGo tO bf (List.range' 1 retries) 0 none []

/-! ### Batch orchestrator (`process_pdfs.py`, `main`) -/

/-- Tabular export: column names and one row of optional cells per
record, `none` rendering as an empty cell. -/
abbrev Table := List String × List (List (Option Json))

/-- Observable actions of one run, in program order. `extractAttempt`
is the `pdfplumber.open` of line 51, `apiCall` the `chat_completion`
call of line 70, the `write*` events the file writes of lines 112,
128–135. -/
inductive Event where
  | skipDone (name : String)
  | extractAttempt (name : String)
  | extractFail (name : String)
  | emptyText (name : String)
  | apiCall (name : String)
  | apiFail (name : String)
  | emptyResponse (name : String)
  | normFail (name : String)
  | success (name : String)
  | writeLedger (ids : List String)
  | writeStore (records : List RecordT)
  | writeCsv (table : Table)
  | writeXlsx (table : Table)
  | nothingToSave

/-- In-memory state of the run: the `processed` ledger list and the
`results` batch. -/
structure OrchState where
  processed : List String
  results : List RecordT

/-- Line 66: the full request text — the configured instruction prompt,
the fixed separator, then the extracted text. -/
def fullPromptOf (cfgPrompt text : List Char) : List Char :=
  cfgPrompt ++ "\n\nPDF 文本:\n".toList ++ text

/-- One loop iteration (lines 41–109). `eO` models the external PDF
text extractor (`none` = raises), `cO` models `chat_completion`
(`none` = raises after exhausting retries). -/
def processOne (eO : String → Option (List Char)) (cO : List Char → Option (List Char))
    (cfgPrompt : List Char) (st : OrchState) (name : String) :
    OrchState × List Event :=
  if name ∈ st.processed then (st, [.skipDone name])
  else
    match eO name with
    | none => (st, [.extractAttempt name, .extractFail name])
    | some text =>
      if pyStrip text = [] then (st, [.extractAttempt name, .emptyText name])
      else
        match cO (fullPromptOf cfgPrompt text) with
        | none => (st, [.extractAttempt name, .apiCall name, .apiFail name])
        | some response =>
          if pyStrip response = [] then
            (st, [.extractAttempt name, .apiCall name, .emptyResponse name])
          else
            match extract_object response with
            | .error _ => (st, [.extractAttempt name, .apiCall name, .normFail name])
            | .ok kvs =>
              ({ processed := st.processed ++ [name],
                 results := st.results ++ [setField kvs "filename" (Json.str name)] },
               [.extractAttempt name, .apiCall name, .success name])

/-- The whole `for pdf_path in pdfs` loop. -/
def runLoop (eO : String → Option (List Char)) (cO : List Char → Option (List Char))
    (cfgPrompt : List Char) (st : OrchState) :
    List String → OrchState × List Event
  | [] => (st, [])
  | n :: rest =>
    let step := processOne eO cO cfgPrompt st n
    let tail := runLoop eO cO cfgPrompt step.1 rest
    (tail.1, step.2 ++ tail.2)

/-- Keep the first occurrence of each key, given already-seen keys. -/
def dedupFirstAux : List String → List String → List String
  | _, [] => []
  | seen, k :: rest =>
    if k ∈ seen then dedupFirstAux seen rest
    else k :: dedupFirstAux (k :: seen) rest

/-- Modelled from the spec: the column set of the tabular export
(pandas `DataFrame` / `to_csv` are external collaborators) — "columns
are the union of all fields seen across all Records", in order of first
appearance. -/
def unionCols (rs : List RecordT) : List String :=
  dedupFirstAux [] ((rs.map (fun r => r.map Prod.fst)).flatten)

/-- Modelled from the spec: the derived tabular export — one row per
record, one cell per column, "missing fields render as empty"
(`none`). -/
def exportTable (rs : List RecordT) : Table :=
  (unionCols rs, rs.map (fun r => (unionCols rs).map (fun c => dictGet r c)))

/-- End of run (lines 111–137): always persist the ledger; then either
report nothing to save (lines 115–117) or overwrite the store with
existing + new and derive the tabular exports (lines 119–135). -/
def finalize (existingStore : List RecordT) (st : OrchState) : List Event :=
  Event.writeLedger st.processed ::
    (if st.results.isEmpty then [Event.nothingToSave]
     else
       let all := existingStore ++ st.results
       [Event.writeStore all, Event.writeCsv (exportTable all),
        Event.writeXlsx (exportTable all)])

/-- A full run of `main` after configuration: loop over the inputs,
then the end-of-run writes. `existingStore` is the content of
`results.jsonl` (empty when absent). -/
def runMain (eO : String → Option (List Char)) (cO : List Char → Option (List Char))
    (cfgPrompt : List Char) (existingStore : List RecordT)
    (processed₀ : List String) (pdfs : List String) : OrchState × List Event :=
  let r := runLoop eO cO cfgPrompt ⟨processed₀, []⟩ pdfs
  (r.1, r.2 ++ finalize existingStore r.1)

/-- Persistent files touched by a run, for frame conditions. -/
structure FS where
  ledgerFile : List String
  storeFile : List RecordT
  csvFile : Option Table
  xlsxFile : Option Table

/-- Effect of one observable event on the persistent files. -/
def applyEvent (fs : FS) : Event → FS
  | .writeLedger ids => { fs with ledgerFile := ids }
  | .writeStore rs => { fs with storeFile := rs }
  | .writeCsv t => { fs with csvFile := some t }
  | .writeXlsx t => { fs with xlsxFile := some t }
  | _ => fs

/-- Effect of a trace on the persistent files. -/
def applyEvents (fs : FS) (evs : List Event) : FS :=
  evs.foldl applyEvent fs

/-! ### Helper lemmas -/

theorem dictGet_setField_self (r : RecordT) (k : String) (v : Json) :
    dictGet (setField r k v) k = some v := by
  induction r with
  | nil => simp [setField, dictGet]
  | cons kv rest ih =>
    obtain ⟨k', v'⟩ := kv
    by_cases h : k' = k <;> simp [setField, dictGet, h, ih]

theorem firstIdx_eq_none_iff (cs : List Char) (c : Char) :
    firstIdx cs c = none ↔ c ∉ cs := by
  induction cs with
  | nil => simp [firstIdx]
  | cons x rest ih =>
    by_cases h : x = c
    · simp [firstIdx, h]
    · rw [firstIdx]
      simp only [if_neg h]
      cases hf : firstIdx rest c with
      | none => simp [List.mem_cons, ← ih, hf, Ne.symm h]
      | some i => simp [List.mem_cons, hf, Ne.symm h, ih.not_left.mp (by simp [hf])]

theorem lastIdx_eq_none_iff (cs : List Char) (c : Char) :
    lastIdx cs c = none ↔ c ∉ cs := by
  rw [lastIdx]
  cases hf : firstIdx cs.reverse c with
  | none => simpa using (firstIdx_eq_none_iff cs.reverse c).mp hf
  | some i =>
    have : c ∈ cs.reverse := by
      by_contra hc
      rw [(firstIdx_eq_none_iff cs.reverse c).mpr hc] at hf
      exact Option.noConfusion hf
    simpa using this

theorem mem_dedupFirstAux (c : String) (l : List String) :
    ∀ seen, c ∈ dedupFirstAux seen l ↔ c ∈ l ∧ c ∉ seen := by
  induction l with
  | nil => intro seen; simp [dedupFirstAux]
  | cons k rest ih =>
    intro seen
    by_cases h : k ∈ seen
    · rw [dedupFirstAux, if_pos h, ih]
      constructor
      · rintro ⟨h1, h2⟩; exact ⟨List.mem_cons_of_mem _ h1, h2⟩
      · rintro ⟨h1, h2⟩
        rcases List.mem_cons.mp h1 with rfl | h1
        · exact absurd h h2
        · exact ⟨h1, h2⟩
    · rw [dedupFirstAux, if_neg h]
      simp only [List.mem_cons, ih]
      constructor
      · rintro (rfl | ⟨h1, h2⟩)
        · exact ⟨Or.inl rfl, h⟩
        · exact ⟨Or.inr h1, fun hs => h2 (Or.inr hs)⟩
      · rintro ⟨rfl | h1, h2⟩
        · exact Or.inl rfl
        · by_cases hck : c = k
          · exact Or.inl hck
          · exact Or.inr ⟨h1, fun hor => hor.elim hck h2⟩

theorem mem_unionCols (c : String) (rs : List RecordT) :
    c ∈ unionCols rs ↔ ∃ r ∈ rs, c ∈ r.map Prod.fst := by
  rw [unionCols, mem_dedupFirstAux]
  simp [List.mem_flatten]

/-! ### Claim theorems -/

/-- C2: for every input and every configured (positive) truncation limit,
an input longer than the limit is transmitted as its first
`truncate_chars` characters followed by the explicit truncation marker
`"\n\n...<TRUNCATED>..."`, and an input not exceeding the limit is
transmitted unchanged. -/
theorem truncation_spec (prompt : List Char) (n : Nat) (h : 0 < n) :
    (prompt.length > n →
      send_prompt prompt (some n) = prompt.take n ++ "\n\n...<TRUNCATED>...".toList) ∧
    (prompt.length ≤ n → send_prompt prompt (some n) = prompt) := by
  constructor
  · intro hl
    rw [send_prompt, if_pos ⟨Nat.pos_iff_ne_zero.mp h, hl⟩]
  · intro hl
    rw [send_prompt, if_neg]
    rintro ⟨-, hgt⟩
    omega

/-- Witness for C2 at `truncate_chars = 10` and a 20-character input:
the transmitted text is exactly the first 10 characters plus the
marker. -/
theorem truncation_spec_witness :
    send_prompt "abcdefghijklmnopqrst".toList (some 10) =
      "abcdefghijklmnopqrst".toList.take 10 ++ "\n\n...<TRUNCATED>...".toList :=
  (truncation_spec "abcdefghijklmnopqrst".toList 10 (by decide)).1 (by decide)

/-- The concrete reply of the C4 round-trip, i.e. the string
`"```json\n{"a": 1, "biases": "x, y"}\n```"` as a char sequence. -/
def sampleReply : List Char :=
  "```json\n".toList ++ '\x7b' :: "\"a\": 1, \"biases\": \"x, y\"".toList
    ++ '\x7d' :: "\n```".toList

/-- A minimal well-formed remote reply, `{"a": 1}`, used as a stub
response in run witnesses. -/
def sampleResponse : List Char :=
  '\x7b' :: "\"a\": 1".toList ++ ['\x7d']

/-- C4: normalizer round-trip — for the reply
`"```json\n{\"a\": 1, \"biases\": \"x, y\"}\n```"`, fence stripping,
boundary slicing, parsing and list-field repair produce the object with
`a = 1` and `biases = ["x", "y"]` (the comma-delimited string split on
commas, trimmed, empty segments dropped). -/
theorem normalizer_roundtrip :
    extract_object sampleReply =
      .ok [("a", Json.num 1), ("biases", Json.arr [Json.str "x", Json.str "y"])] := rfl

/-- C5: after fence stripping, a reply missing `{` or `}` fails with the
"no object boundaries" error (and yields no record); when both are
present, exactly the substring from the first `{` through the last `}`
inclusive is handed to the parse stage. -/
theorem boundaries_spec (response : List Char) :
    (('{' ∉ stripFences response ∨ '}' ∉ stripFences response) →
      extract_object response = .error .noBoundaries) ∧
    ('{' ∈ stripFences response → '}' ∈ stripFences response →
      ∃ i j, firstIdx (stripFences response) '{' = some i ∧
        lastIdx (stripFences response) '}' = some j ∧
        extract_object response =
          extract_object.parseStage (((stripFences response).take (j + 1)).drop i)) := by
  constructor
  · intro habs
    have hnone : sliceBraces (stripFences response) = none := by
      rw [sliceBraces]
      rcases habs with h1 | h1
      · rw [(firstIdx_eq_none_iff _ _).mpr h1]
      · rw [(lastIdx_eq_none_iff _ _).mpr h1]
        cases firstIdx (stripFences response) '{' <;> rfl
    rw [extract_object, hnone]
  · intro h1 h2
    obtain ⟨i, hi⟩ : ∃ i, firstIdx (stripFences response) '{' = some i := by
      cases hf : firstIdx (stripFences response) '{' with
      | none => exact absurd ((firstIdx_eq_none_iff _ _).mp hf) (by simp [h1])
      | some i => exact ⟨i, rfl⟩
    obtain ⟨j, hj⟩ : ∃ j, lastIdx (stripFences response) '}' = some j := by
      cases hf : lastIdx (stripFences response) '}' with
      | none => exact absurd ((lastIdx_eq_none_iff _ _).mp hf) (by simp [h2])
      | some j => exact ⟨j, rfl⟩
    refine ⟨i, j, hi, hj, ?_⟩
    rw [extract_object, sliceBraces, hi, hj]

/-- Witness for C5: a brace-free reply fails with the no-boundaries
error. -/
theorem boundaries_spec_witness :
    extract_object "no braces here".toList = .error .noBoundaries :=
  (boundaries_spec "no braces here".toList).1 (Or.inl (by decide))

/-- C1 counterexample: with `retries = 3`, `backoff_factor = 1` and every
attempt failing, the sleep trace is `[1, 2, 4]` — the loop also sleeps
4 seconds after the third (final) failed attempt, so the claimed trace
"1s and 2s and at no other time" is false. -/
theorem retry_counterexample :
    (chat_completion (fun _ => Except.error "boom") 3 1).2.2 = [1, 2, 4] ∧
    ([1, 2, 4] : List ℚ) ≠ [1, 2] := by
  constructor
  · simp [chat_completion, List.range', chatGo, attemptBody]
    norm_num
  · simp

/-- C1 (amended): a client configured with `retries = 3`,
`backoff_factor = 1.0` whose every attempt fails performs exactly 3
attempts, sleeps 1 second before the 2nd attempt, 2 seconds before the
3rd, **and additionally 4 seconds after the 3rd (final) failed
attempt**, and then raises the final underlying error unwrapped. -/
theorem retry_spec (tO : Nat → Except String Json)
    (h : ∀ k, ∃ e, attemptBody (tO k) = .error e) :
    ∃ e₃, attemptBody (tO 3) = .error e₃ ∧
      chat_completion tO 3 1 = (.error e₃, 3, [1, 2, 4]) := by
  obtain ⟨e₁, h₁⟩ := h 1
  obtain ⟨e₂, h₂⟩ := h 2
  obtain ⟨e₃, h₃⟩ := h 3
  refine ⟨e₃, h₃, ?_⟩
  simp [chat_completion, List.range', chatGo, h₁, h₂, h₃]
  norm_num

/-- Witness for C1 (amended) at an always-failing transport. -/
theorem retry_spec_witness :
    chat_completion (fun _ => Except.error "down") 3 1 =
      (.error (CallError.transport "down"), 3, [1, 2, 4]) := by
  obtain ⟨e₃, h₃, hc⟩ :=
    retry_spec (fun _ => Except.error "down")
      (fun _ => ⟨CallError.transport "down", rfl⟩)
  have h4 : (Except.error (CallError.transport "down") :
      Except CallError (List Char)) = Except.error e₃ := h₃
  injection h4 with h5
  rw [hc, ← h5]

/-- C3 counterexample: a transport response `{"error": "boom"}` — an
embedded error indicator at the top level, no choices, hence no text
fragment — is failed with the generic "No text in response" error, not
with a failure carrying "boom": the code only inspects the `choices`
value for an embedded error. -/
theorem no_fragment_counterexample :
    respOutcome (Json.obj [("error", Json.str "boom")]) = .error CallError.noText ∧
    (Except.error CallError.noText : Except CallError (List Char)) ≠
      .error (CallError.llmError (Json.str "boom")) := by
  refine ⟨rfl, ?_⟩
  simp

/-- C3 (amended): when an attempt's transport response yields no text
fragment, the attempt fails as follows: if the **`choices` value of the
response is itself a dict containing an `"error"` key**, the raised
failure carries that error value; otherwise — including when an error
indicator appears elsewhere in the response, e.g. at top level — the
generic "No text in response" failure is raised (and the retry policy
then applies). -/
theorem no_fragment_spec (rkvs : RecordT) (elems : List Json)
    (hiter : iterElems (choicesOf rkvs) = some elems)
    (hfrag : elems.filterMap fragmentOf = []) :
    (∀ ckvs v, choicesOf rkvs = Json.obj ckvs → dictGet ckvs "error" = some v →
      respOutcome (Json.obj rkvs) = .error (CallError.llmError v)) ∧
    (∀ ckvs, choicesOf rkvs = Json.obj ckvs → dictGet ckvs "error" = none →
      respOutcome (Json.obj rkvs) = .error CallError.noText) ∧
    ((∀ ckvs, choicesOf rkvs ≠ Json.obj ckvs) →
      respOutcome (Json.obj rkvs) = .error CallError.noText) := by
  refine ⟨?_, ?_, ?_⟩
  · intro ckvs v hobj herr
    rw [respOutcome, hiter]
    rw [hobj] at hiter ⊢
    simp [hfrag, herr]
  · intro ckvs hobj herr
    rw [respOutcome, hiter]
    rw [hobj] at hiter ⊢
    simp [hfrag, herr]
  · intro hnot
    rw [respOutcome, hiter]
    simp only [hfrag]

/-- Witness for C3 (amended): a response whose `choices` value is a dict
with an `error` key fails carrying that error value. -/
theorem no_fragment_spec_witness :
    respOutcome (Json.obj [("choices", Json.obj [("error", Json.str "bad")])]) =
      .error (CallError.llmError (Json.str "bad")) :=
  (no_fragment_spec [("choices", Json.obj [("error", Json.str "bad")])]
      [Json.str "error"] rfl rfl).1
    [("error", Json.str "bad")] (Json.str "bad") rfl rfl

/-- Characterization of one loop iteration: either the state is left
unchanged, or the input was not yet processed and exactly its name and
its (filename-tagged) record are appended. -/
theorem processOne_char (eO : String → Option (List Char))
    (cO : List Char → Option (List Char)) (cfg : List Char)
    (st : OrchState) (n : String) :
    (processOne eO cO cfg st n).1 = st ∨
    (n ∉ st.processed ∧ ∃ kvs,
      (processOne eO cO cfg st n).1 =
        ⟨st.processed ++ [n], st.results ++ [setField kvs "filename" (Json.str n)]⟩) := by
  by_cases hmem : n ∈ st.processed
  · left; simp [processOne, hmem]
  · cases heO : eO n with
    | none => left; simp [processOne, hmem, heO]
    | some text =>
      by_cases ht : pyStrip text = []
      · left; simp [processOne, hmem, heO, ht]
      · cases hcO : cO (fullPromptOf cfg text) with
        | none => left; simp [processOne, hmem, heO, ht, hcO]
        | some response =>
          by_cases hr : pyStrip response = []
          · left; simp [processOne, hmem, heO, ht, hcO, hr]
          · cases hex : extract_object response with
            | error e => left; simp [processOne, hmem, heO, ht, hcO, hr, hex]
            | ok kvs =>
              right
              exact ⟨hmem, kvs, by simp [processOne, hmem, heO, ht, hcO, hr, hex]⟩

/-- The events of one iteration mention only the iterated input, and
`apiCall`/`extractAttempt` are only emitted for an input that was not
already in the ledger. -/
theorem processOne_events (eO : String → Option (List Char))
    (cO : List Char → Option (List Char)) (cfg : List Char)
    (st : OrchState) (n m : String)
    (h : Event.apiCall m ∈ (processOne eO cO cfg st n).2 ∨
      Event.extractAttempt m ∈ (processOne eO cO cfg st n).2) :
    m = n ∧ n ∉ st.processed := by
  by_cases hmem : n ∈ st.processed
  · simp [processOne, hmem] at h
  · refine ⟨?_, hmem⟩
    cases heO : eO n with
    | none => simp [processOne, hmem, heO] at h; tauto
    | some text =>
      by_cases ht : pyStrip text = []
      · simp [processOne, hmem, heO, ht] at h; tauto
      · cases hcO : cO (fullPromptOf cfg text) with
        | none => simp [processOne, hmem, heO, ht, hcO] at h; tauto
        | some response =>
          by_cases hr : pyStrip response = []
          · simp [processOne, hmem, heO, ht, hcO, hr] at h; tauto
          · cases hex : extract_object response with
            | error e => simp [processOne, hmem, heO, ht, hcO, hr, hex] at h; tauto
            | ok kvs => simp [processOne, hmem, heO, ht, hcO, hr, hex] at h; tauto

/-- Each iteration only grows the in-memory ledger. -/
theorem processOne_processed_mono (eO : String → Option (List Char))
    (cO : List Char → Option (List Char)) (cfg : List Char)
    (st : OrchState) (n : String) :
    st.processed ⊆ (processOne eO cO cfg st n).1.processed := by
  rcases processOne_char eO cO cfg st n with h | ⟨-, kvs, h⟩
  · rw [h]; exact fun x hx => hx
  · rw [h]; exact List.subset_append_left _ _

/-- The loop only grows the in-memory ledger. -/
theorem runLoop_processed_mono (eO : String → Option (List Char))
    (cO : List Char → Option (List Char)) (cfg : List Char)
    (pdfs : List String) (st : OrchState) :
    st.processed ⊆ (runLoop eO cO cfg st pdfs).1.processed := by
  induction pdfs generalizing st with
  | nil => simp [runLoop]
  | cons n rest ih =>
    rw [runLoop]
    exact (processOne_processed_mono eO cO cfg st n).trans (ih _)

/-- C6: the result accumulator overwrites the record store with
existing records followed by new records in that order, and derives a
tabular export whose columns are exactly the union of the fields of all
records (in order of first appearance), each row giving a record's
value at each column with missing fields empty (`none`). -/
theorem accumulator_merge (existing : List RecordT) (st : OrchState)
    (h : st.results ≠ []) :
    finalize existing st =
      [Event.writeLedger st.processed,
       Event.writeStore (existing ++ st.results),
       Event.writeCsv (exportTable (existing ++ st.results)),
       Event.writeXlsx (exportTable (existing ++ st.results))] ∧
    (∀ c, c ∈ (exportTable (existing ++ st.results)).1 ↔
      ∃ r ∈ existing ++ st.results, c ∈ r.map Prod.fst) ∧
    (exportTable (existing ++ st.results)).2 =
      (existing ++ st.results).map
        (fun r => (exportTable (existing ++ st.results)).1.map (fun c => dictGet r c)) := by
  refine ⟨?_, ?_, rfl⟩
  · rw [finalize, if_neg (by simpa using h)]
  · intro c
    exact mem_unionCols c (existing ++ st.results)

/-- Witness for C6: merging existing `[{id: 1}]` with new `[{id: 2}]`
persists `[{id: 1}, {id: 2}]` in that order, and the export has the
single column `id` with both values. -/
theorem accumulator_merge_witness :
    finalize [[("id", Json.num 1)]] ⟨["a.pdf", "b.pdf"], [[("id", Json.num 2)]]⟩ =
      [Event.writeLedger ["a.pdf", "b.pdf"],
       Event.writeStore [[("id", Json.num 1)], [("id", Json.num 2)]],
       Event.writeCsv (["id"], [[some (Json.num 1)], [some (Json.num 2)]]),
       Event.writeXlsx (["id"], [[some (Json.num 1)], [some (Json.num 2)]])] := by
  rw [(accumulator_merge [[("id", Json.num 1)]]
    ⟨["a.pdf", "b.pdf"], [[("id", Json.num 2)]]⟩ (by simp)).1]
  rfl

/-- C8: when the run produced no new record, the accumulator skips the
write entirely and reports nothing to persist: the record store and the
tabular exports are left exactly as they were, not rewritten. -/
theorem accumulator_skip (existing : List RecordT) (fs : FS) (st : OrchState)
    (h : st.results = []) :
    finalize existing st = [Event.writeLedger st.processed, Event.nothingToSave] ∧
    (applyEvents fs (finalize existing st)).storeFile = fs.storeFile ∧
    (applyEvents fs (finalize existing st)).csvFile = fs.csvFile ∧
    (applyEvents fs (finalize existing st)).xlsxFile = fs.xlsxFile := by
  have h1 : finalize existing st = [Event.writeLedger st.processed, Event.nothingToSave] := by
    rw [finalize, if_pos (by simp [h])]
  exact ⟨h1, by rw [h1]; rfl, by rw [h1]; rfl, by rw [h1]; rfl⟩

/-- Witness for C8: an empty batch leaves store and exports untouched. -/
theorem accumulator_skip_witness :
    finalize [[("id", Json.num 1)]] ⟨["a.pdf"], []⟩ =
      [Event.writeLedger ["a.pdf"], Event.nothingToSave] ∧
    (applyEvents ⟨[], [[("id", Json.num 1)]], none, none⟩
      (finalize [[("id", Json.num 1)]] ⟨["a.pdf"], []⟩)).storeFile =
      [[("id", Json.num 1)]] :=
  ⟨(accumulator_skip [[("id", Json.num 1)]] ⟨[], [[("id", Json.num 1)]], none, none⟩
      ⟨["a.pdf"], []⟩ rfl).1,
   (accumulator_skip [[("id", Json.num 1)]] ⟨[], [[("id", Json.num 1)]], none, none⟩
      ⟨["a.pdf"], []⟩ rfl).2.1⟩

/-- The loop preserves freedom from duplicates of the ledger. -/
theorem runLoop_nodup (eO : String → Option (List Char))
    (cO : List Char → Option (List Char)) (cfg : List Char) (pdfs : List String) :
    ∀ st : OrchState, st.processed.Nodup →
      (runLoop eO cO cfg st pdfs).1.processed.Nodup := by
  induction pdfs with
  | nil => intro st h; simpa [runLoop] using h
  | cons n rest ih =>
    intro st h
    rw [runLoop]
    apply ih
    rcases processOne_char eO cO cfg st n with hc | ⟨hmem, kvs, hc⟩
    · rw [hc]; exact h
    · rw [hc]
      exact List.Nodup.append h (List.nodup_singleton n) (by simpa using hmem)

/-- C9: the ledger never accumulates duplicate identifiers — starting
from a duplicate-free persisted ledger, the ledger persisted at the end
of any run is still duplicate-free (and it is the one written) — and
marking an already-done identifier is a no-op: an iteration on an
identifier already in the ledger leaves the state unchanged. -/
theorem ledger_nodup (eO : String → Option (List Char))
    (cO : List Char → Option (List Char)) (cfg : List Char)
    (store : List RecordT) (p₀ pdfs : List String) (h : p₀.Nodup) :
    (runMain eO cO cfg store p₀ pdfs).1.processed.Nodup ∧
    Event.writeLedger (runMain eO cO cfg store p₀ pdfs).1.processed ∈
      (runMain eO cO cfg store p₀ pdfs).2 ∧
    (∀ (st : OrchState) (name : String), name ∈ st.processed →
      processOne eO cO cfg st name = (st, [Event.skipDone name])) := by
  refine ⟨runLoop_nodup eO cO cfg pdfs ⟨p₀, []⟩ h, ?_, ?_⟩
  · have hm : (runMain eO cO cfg store p₀ pdfs).2 =
        (runLoop eO cO cfg ⟨p₀, []⟩ pdfs).2 ++
          finalize store (runLoop eO cO cfg ⟨p₀, []⟩ pdfs).1 := rfl
    rw [hm]
    refine List.mem_append.mpr (Or.inr ?_)
    rw [finalize]
    exact List.mem_cons_self _ _
  · intro st name hname
    simp [processOne, hname]

/-- Witness for C9 at a run that reprocesses nothing and one that
appends: ledger `["a.pdf"]` stays duplicate-free over inputs
`["a.pdf", "b.pdf"]`. -/
theorem ledger_nodup_witness :
    (runMain (fun _ => some "t".toList) (fun _ => some sampleResponse)
      [] [] ["a.pdf"] ["a.pdf", "b.pdf"]).1.processed.Nodup :=
  (ledger_nodup (fun _ => some "t".toList) (fun _ => some sampleResponse)
    [] [] ["a.pdf"] ["a.pdf", "b.pdf"] (by simp)).1

/-- Identifiers already in the ledger are never extracted or sent to the
remote client during the loop. -/
theorem runLoop_no_contact (eO : String → Option (List Char))
    (cO : List Char → Option (List Char)) (cfg : List Char)
    (pdfs : List String) (name : String) :
    ∀ st : OrchState, name ∈ st.processed →
      Event.apiCall name ∉ (runLoop eO cO cfg st pdfs).2 ∧
      Event.extractAttempt name ∉ (runLoop eO cO cfg st pdfs).2 := by
  induction pdfs with
  | nil => intro st _; simp [runLoop]
  | cons n rest ih =>
    intro st hmem
    have hnext : name ∈ (processOne eO cO cfg st n).1.processed :=
      processOne_processed_mono eO cO cfg st n hmem
    rw [runLoop]
    constructor
    · intro hin
      rcases List.mem_append.mp hin with h1 | h1
      · obtain ⟨rfl, hnot⟩ := processOne_events eO cO cfg st n name (Or.inl h1)
        exact hnot hmem
      · exact (ih _ hnext).1 h1
    · intro hin
      rcases List.mem_append.mp hin with h1 | h1
      · obtain ⟨rfl, hnot⟩ := processOne_events eO cO cfg st n name (Or.inr h1)
        exact hnot hmem
      · exact (ih _ hnext).2 h1

/-- The end-of-run writes contact neither the extractor nor the remote
client. -/
theorem finalize_no_contact (store : List RecordT) (st : OrchState) (m : String) :
    Event.apiCall m ∉ finalize store st ∧
    Event.extractAttempt m ∉ finalize store st := by
  rw [finalize]
  by_cases h : st.results.isEmpty <;> simp [h]

/-- C7: an identifier already present in the ledger at the start of a
run is never extracted and never sent to the remote call client during
that run — it goes straight to the terminal skip. -/
theorem ledger_gates_client (eO : String → Option (List Char))
    (cO : List Char → Option (List Char)) (cfg : List Char)
    (store : List RecordT) (p₀ pdfs : List String) (name : String)
    (h : name ∈ p₀) :
    Event.apiCall name ∉ (runMain eO cO cfg store p₀ pdfs).2 ∧
    Event.extractAttempt name ∉ (runMain eO cO cfg store p₀ pdfs).2 := by
  have hm : (runMain eO cO cfg store p₀ pdfs).2 =
      (runLoop eO cO cfg ⟨p₀, []⟩ pdfs).2 ++
        finalize store (runLoop eO cO cfg ⟨p₀, []⟩ pdfs).1 := rfl
  have hloop := runLoop_no_contact eO cO cfg pdfs name ⟨p₀, []⟩ h
  have hfin := finalize_no_contact store (runLoop eO cO cfg ⟨p₀, []⟩ pdfs).1 name
  rw [hm]
  constructor
  · intro hin
    rcases List.mem_append.mp hin with h1 | h1
    · exact hloop.1 h1
    · exact hfin.1 h1
  · intro hin
    rcases List.mem_append.mp hin with h1 | h1
    · exact hloop.2 h1
    · exact hfin.2 h1

/-- Witness for C7: with `"a.pdf"` already in the ledger, a run over
`["a.pdf"]` performs no remote call and no extraction for it. -/
theorem ledger_gates_client_witness :
    Event.apiCall "a.pdf" ∉
      (runMain (fun _ => some "t".toList) (fun _ => some sampleResponse)
        [] [] ["a.pdf"] ["a.pdf"]).2 :=
  (ledger_gates_client (fun _ => some "t".toList) (fun _ => some sampleResponse)
    [] [] ["a.pdf"] ["a.pdf"] "a.pdf" (by simp)).1

/-- Every record produced by the loop is tagged with a `filename` that
the in-memory ledger already contains. -/
theorem runLoop_results_inv (eO : String → Option (List Char))
    (cO : List Char → Option (List Char)) (cfg : List Char) (pdfs : List String) :
    ∀ st : OrchState,
      (∀ r ∈ st.results, ∃ nm, dictGet r "filename" = some (Json.str nm) ∧
        nm ∈ st.processed) →
      ∀ r ∈ (runLoop eO cO cfg st pdfs).1.results, ∃ nm,
        dictGet r "filename" = some (Json.str nm) ∧
        nm ∈ (runLoop eO cO cfg st pdfs).1.processed := by
  induction pdfs with
  | nil => intro st h; simpa [runLoop] using h
  | cons n rest ih =>
    intro st h
    rw [runLoop]
    apply ih
    intro r hr
    rcases processOne_char eO cO cfg st n with hc | ⟨hmem, kvs, hc⟩
    · rw [hc] at hr ⊢
      exact h r hr
    · rw [hc] at hr ⊢
      rcases List.mem_append.mp hr with h1 | h1
      · obtain ⟨nm, hnm, hmem'⟩ := h r h1
        exact ⟨nm, hnm, List.mem_append.mpr (Or.inl hmem')⟩
      · rcases List.mem_singleton.mp h1 with rfl
        exact ⟨n, dictGet_setField_self kvs "filename" (Json.str n), by simp⟩

/-- C10: in every run that produces at least one new record, the ledger
file is written strictly before the record store: the trace has the
`writeLedger` event at an index strictly below the `writeStore` event,
and the ledger written already contains the `filename` identifier of
every new record — so a crash between the two writes leaves those
identifiers marked done while their records were never persisted. -/
theorem ledger_written_before_store (eO : String → Option (List Char))
    (cO : List Char → Option (List Char)) (cfg : List Char)
    (store : List RecordT) (p₀ pdfs : List String)
    (h : (runLoop eO cO cfg ⟨p₀, []⟩ pdfs).1.results ≠ []) :
    ∃ i j : Nat, i < j ∧
      (runMain eO cO cfg store p₀ pdfs).2[i]? =
        some (Event.writeLedger (runLoop eO cO cfg ⟨p₀, []⟩ pdfs).1.processed) ∧
      (runMain eO cO cfg store p₀ pdfs).2[j]? =
        some (Event.writeStore (store ++ (runLoop eO cO cfg ⟨p₀, []⟩ pdfs).1.results)) ∧
      ∀ r ∈ (runLoop eO cO cfg ⟨p₀, []⟩ pdfs).1.results, ∃ nm,
        dictGet r "filename" = some (Json.str nm) ∧
        nm ∈ (runLoop eO cO cfg ⟨p₀, []⟩ pdfs).1.processed := by
  set st := (runLoop eO cO cfg ⟨p₀, []⟩ pdfs).1 with hst
  set L := (runLoop eO cO cfg ⟨p₀, []⟩ pdfs).2 with hL
  have hm : (runMain eO cO cfg store p₀ pdfs).2 = L ++ finalize store st := rfl
  have hfin : finalize store st =
      [Event.writeLedger st.processed,
       Event.writeStore (store ++ st.results),
       Event.writeCsv (exportTable (store ++ st.results)),
       Event.writeXlsx (exportTable (store ++ st.results))] := by
    rw [finalize, if_neg (by simpa using h)]
  refine ⟨L.length, L.length + 1, Nat.lt_succ_self _, ?_, ?_, ?_⟩
  · rw [hm, List.getElem?_append_right (le_refl _), hfin]
    simp
  · rw [hm, List.getElem?_append_right (Nat.le_succ_of_le (le_refl _)), hfin]
    simp
  · exact runLoop_results_inv eO cO cfg pdfs ⟨p₀, []⟩ (by simp)

/-- Witness for C10 at a one-input run that produces a record. -/
theorem ledger_written_before_store_witness :
    ∃ i j : Nat, i < j ∧
      (runMain (fun _ => some "t".toList) (fun _ => some sampleResponse)
        [] [] [] ["b.pdf"]).2[i]? =
        some (Event.writeLedger
          (runLoop (fun _ => some "t".toList) (fun _ => some sampleResponse)
            [] ⟨[], []⟩ ["b.pdf"]).1.processed) ∧
      (runMain (fun _ => some "t".toList) (fun _ => some sampleResponse)
        [] [] [] ["b.pdf"]).2[j]? =
        some (Event.writeStore
          ([] ++ (runLoop (fun _ => some "t".toList) (fun _ => some sampleResponse)
            [] ⟨[], []⟩ ["b.pdf"]).1.results)) ∧
      ∀ r ∈ (runLoop (fun _ => some "t".toList) (fun _ => some sampleResponse)
          [] ⟨[], []⟩ ["b.pdf"]).1.results, ∃ nm,
        dictGet r "filename" = some (Json.str nm) ∧
        nm ∈ (runLoop (fun _ => some "t".toList) (fun _ => some sampleResponse)
          [] ⟨[], []⟩ ["b.pdf"]).1.processed :=
  ledger_written_before_store (fun _ => some "t".toList)
    (fun _ => some sampleResponse) [] [] [] ["b.pdf"]
    (by
      have hres : (runLoop (fun _ => some "t".toList)
          (fun _ => some sampleResponse) [] ⟨[], []⟩ ["b.pdf"]).1.results =
          [[("a", Json.num 1), ("filename", Json.str "b.pdf")]] := rfl
      rw [hres]
      simp)

end EduBias

